import Mathlib

/-!
Verification development for the LittleKernel configuration tooling
(`scripts/menuconfig.py` and `scripts/config_header_generator.py`).

Config files are modelled as lists of lines, a line being a list of
characters (`Str`).  Python dynamic values that occur in the config model
are booleans, integers and strings, modelled by the inductive `PyVal`;
Python's `isinstance` tests are modelled explicitly (in CPython, `bool`
is a subclass of `int`, so `isinstance(True, int)` holds).  Python dicts
are modelled as association lists with in-place update semantics
(`dictSet`): assignment to an existing key keeps its position, a new key
is appended, matching CPython insertion order.
-/

set_option autoImplicit false
set_option maxRecDepth 8000

abbrev Str := List Char

/-- The ASCII characters removed by `str.strip()` and ignored around `int()`
input: HT..CR (9-13), FS..US (28-31) and the space (32) — exactly the ASCII
characters for which Python's `str.isspace()` holds.  Python additionally
strips Unicode whitespace; the model is scoped to ASCII text, and the
theorems whose truth depends on this scope carry an explicit ASCII
hypothesis. -/
def isPySpace (c : Char) : Bool :=
  decide (c.toNat = 32 ∨ (9 ≤ c.toNat ∧ c.toNat ≤ 13) ∨ (28 ≤ c.toNat ∧ c.toNat ≤ 31))

/-- The ASCII characters `int()` ignores around its input: HT..CR (9-13) and
the space (32).  This is strictly narrower than the `str.strip()` set: FS..US
(28-31) satisfy `str.isspace()` but make `int()` raise (`int("5\x1c")` is a
`ValueError` while `"5\x1c".strip()` is `"5"`). -/
def isIntSpace (c : Char) : Bool :=
  decide (c.toNat = 32 ∨ (9 ≤ c.toNat ∧ c.toNat ≤ 13))

/-- Decimal digit test for the model of Python's `int()`. -/
def isPyDigit (c : Char) : Bool :=
  48 ≤ c.toNat && c.toNat ≤ 57

/-- Drop trailing characters satisfying `p` (via reverse). -/
def dropTrail (p : Char → Bool) (l : Str) : Str :=
  (l.reverse.dropWhile p).reverse

/-- Model of Python's `str.strip()`: remove leading and trailing whitespace. -/
def pyStrip (l : Str) : Str :=
  dropTrail isPySpace (l.dropWhile isPySpace)

/-- The whitespace removal `int()` itself performs around its input. -/
def intStrip (l : Str) : Str :=
  dropTrail isIntSpace (l.dropWhile isIntSpace)

/-- Convenience: the character list of a string literal. -/
def chs (s : String) : Str := s.data

/-- Value of a decimal digit character. -/
def digitVal (c : Char) : Nat := c.toNat - 48

/-- Digit character for `n < 10`. -/
def digitChar (n : Nat) : Char :=
  if n = 0 then '0' else if n = 1 then '1' else if n = 2 then '2'
  else if n = 3 then '3' else if n = 4 then '4' else if n = 5 then '5'
  else if n = 6 then '6' else if n = 7 then '7' else if n = 8 then '8' else '9'

/-- Numeric value of a digit string (most significant first). -/
def natOfDigits (l : Str) : Nat :=
  l.foldl (fun a c => a * 10 + digitVal c) 0

/-- Decimal digits of `n`, fuel-indexed so the kernel can evaluate it. -/
def digitsAux : Nat → Nat → Str
  | 0, _ => []
  | fuel + 1, n => if n < 10 then [digitChar n] else digitsAux fuel (n / 10) ++ [digitChar (n % 10)]

/-- Decimal digit string of a natural number, as Python's `str` renders it. -/
def digitsOfNat (n : Nat) : Str := digitsAux (n + 1) n

/-- Model of Python's `str` applied to an `int` (decimal, `-` sign for negatives). -/
def pyIntRepr : Int → Str
  | Int.ofNat n => digitsOfNat n
  | Int.negSucc n => '-' :: digitsOfNat (n + 1)

/-- The part of a decimal literal after its first digit: further digits with
single underscores allowed between digits (PEP 515), as `int()` accepts. -/
def pyDigitsTail : Str → Bool
  | [] => true
  | c :: rest =>
    if c = '_' then
      match rest with
      | [] => false
      | c2 :: rest2 => isPyDigit c2 && pyDigitsTail rest2
    else isPyDigit c && pyDigitsTail rest

/-- A nonempty run of decimal digits with PEP 515 underscore grouping:
`1_0` is accepted, `_1`, `1_` and `1__0` are not. -/
def pyDigitsRun : Str → Bool
  | [] => false
  | c :: rest => isPyDigit c && pyDigitsTail rest

/-- Model of Python's base-10 `int(s)`, exact on ASCII inputs: optional
surrounding whitespace (the set `int()` itself ignores), an optional sign,
then a nonempty digit run with PEP 515 underscore grouping; the underscores
do not contribute to the value.  Returns `none` where `int()` raises
`ValueError`.  Unicode digits and Unicode whitespace are outside the model's
scope, so theorems using a `pyInt? _ = none` hypothesis restrict their input
to ASCII. -/
def pyInt? (s : Str) : Option Int :=
  let t := intStrip s
  if t = [] then none
  else if t.head? = some '-' then
    (if pyDigitsRun t.tail then some (-(natOfDigits (t.tail.filter (· ≠ '_')) : Int)) else none)
  else if t.head? = some '+' then
    (if pyDigitsRun t.tail then some ((natOfDigits (t.tail.filter (· ≠ '_')) : Int)) else none)
  else if pyDigitsRun t then some ((natOfDigits (t.filter (· ≠ '_')) : Int)) else none

/-- ASCII lower-casing, modelling `str.lower()` on the config token alphabet. -/
def charLower (c : Char) : Char :=
  if 65 ≤ c.toNat ∧ c.toNat ≤ 90 then Char.ofNat (c.toNat + 32) else c

/-- ASCII upper-casing. -/
def charUpper (c : Char) : Char :=
  if 97 ≤ c.toNat ∧ c.toNat ≤ 122 then Char.ofNat (c.toNat - 32) else c

def strLower (s : Str) : Str := s.map charLower

/-- Does `pre` occur at the start of `s`? -/
def startsList : Str → Str → Bool
  | [], _ => true
  | _ :: _, [] => false
  | a :: as, b :: bs => a = b && startsList as bs

/-- Does `needle` occur anywhere inside `s` (Python's `in` on strings)? -/
def hasSub (needle : Str) : Str → Bool
  | [] => startsList needle []
  | s@(_ :: rest) => startsList needle s || hasSub needle rest

/-- Index of the first occurrence of `needle` (Python's `str.find`, `none` for `-1`). -/
def findSubIdx? (needle : Str) : Str → Option Nat
  | [] => if startsList needle [] then some 0 else none
  | s@(_ :: rest) =>
    if startsList needle s then some 0
    else (findSubIdx? needle rest).map (· + 1)

/-- Model of the Python slice `line[2:line.find(needle)]` (with `find` giving `-1`
when absent, i.e. the slice `line[2:-1]`). -/
def sliceFromTwoToFind (needle l : Str) : Str :=
  match findSubIdx? needle l with
  | some i => (l.take i).drop 2
  | none => (l.take (l.length - 1)).drop 2

/-- Dynamic Python values stored in the config model. -/
inductive PyVal where
  | bool (b : Bool)
  | int (n : Int)
  | str (s : Str)
  deriving DecidableEq, Inhabited

/-- Constructor test: is this value a Python `bool` object? -/
def PyVal.isBoolVal : PyVal → Bool
  | .bool _ => true
  | _ => false

/-- Constructor test: is this value a Python `int` object that is not a `bool`? -/
def PyVal.isIntVal : PyVal → Bool
  | .int _ => true
  | _ => false

/-- Constructor test: is this value a Python `str` object? -/
def PyVal.isStrVal : PyVal → Bool
  | .str _ => true
  | _ => false

/-- Model of `isinstance(v, bool)`. -/
def isinstBool (v : PyVal) : Bool := v.isBoolVal

/-- Model of `isinstance(v, int)`: in CPython `bool` subclasses `int`,
so boolean values also pass this test. -/
def isinstInt (v : PyVal) : Bool := v.isBoolVal || v.isIntVal

/-- Model of `isinstance(v, str)`. -/
def isinstStr (v : PyVal) : Bool := v.isStrVal

/-- Python truthiness of a config value. -/
def pyTruthy : PyVal → Bool
  | .bool b => b
  | .int n => n ≠ 0
  | .str s => s ≠ []

/-- Model of Python's `not v` (always yields a `bool`). -/
def pyNot (v : PyVal) : PyVal := .bool (!pyTruthy v)

/-- Model of `str(v)` as used by f-string interpolation. -/
def pyStrOf : PyVal → Str
  | .bool b => if b then chs "True" else chs "False"
  | .int n => pyIntRepr n
  | .str s => s

/-- A Python dict with `Str` keys, as an insertion-ordered association list. -/
abbrev Dict := List (Str × PyVal)

def keysOf (d : Dict) : List Str := d.map Prod.fst

/-- Model of `d[k] = v`: replace in place if the key is present, else append. -/
def dictSet (d : Dict) (k : Str) (v : PyVal) : Dict :=
  if k ∈ keysOf d then d.map (fun p => if p.1 = k then (k, v) else p) else d ++ [(k, v)]

/-- Model of `d.update(other)`: assign every pair of `other` in order. -/
def dictUpdate (d other : Dict) : Dict :=
  other.foldl (fun a p => dictSet a p.1 p.2) d

/-- Model of `d[k]` as a total lookup (first entry with the key). -/
def lookupStr (k : Str) : Dict → Option PyVal
  | [] => none
  | p :: rest => if p.1 = k then some p.2 else lookupStr k rest

/-- Build a dict by assigning a list of pairs in order into the empty dict. -/
def dictOfPairs (ps : Dict) : Dict :=
  ps.foldl (fun a p => dictSet a p.1 p.2) []

/-- Lexicographic (code-point) order on keys, as Python's `sorted` compares strings. -/
def keyLe : Str → Str → Bool
  | [], _ => true
  | _ :: _, [] => false
  | a :: as, b :: bs => if a = b then keyLe as bs else decide (a < b)

def insertSorted (x : Str × PyVal) : Dict → Dict
  | [] => [x]
  | y :: ys => if keyLe x.1 y.1 then x :: y :: ys else y :: insertSorted x ys

/-- Model of `sorted(config.items())` (keys are unique in a dict, so only
the key ordering matters; a stable insertion sort). -/
def sortKeys (d : Dict) : Dict := d.foldr insertSorted []

/-!
Embedding of `scripts/menuconfig.py`.
-/

/-- Value classification of `load_config` (`menuconfig.py` lines 18-29):
quoted values lose their quotes, the literal `y` and `n` become booleans,
then `int()` is attempted, and anything else stays a string. -/
def parseValue (v : Str) : PyVal :=
  if v.head? = some '"' ∧ v.reverse.head? = some '"' then .str (v.drop 1).dropLast
  else if v = chs "y" then .bool true
  else if v = chs "n" then .bool false
  else match pyInt? v with
    | some n => .int n
    | none => .str v

/-- One iteration of the line loop of `load_config` (`menuconfig.py` lines 13-34).
The `elif` handling `# NAME is not set` lines sits inside the branch that
requires the line not to start with `#`; it is embedded in that (unreachable)
position exactly as written. -/
def loadLine (d : Dict) (line : Str) : Dict :=
  let l := pyStrip line
  if l ≠ [] ∧ l.head? ≠ some '#' then
    if '=' ∈ l then
      dictSet d (l.takeWhile (· ≠ '=')) (parseValue (l.dropWhile (· ≠ '=')).tail)
    else if l.head? = some '#' ∧ hasSub (chs " is not set") l then
      dictSet d (sliceFromTwoToFind (chs " is not set") l) (.bool false)
    else d
  else d

/-- The body of `load_config` applied to the lines of an existing file. -/
def loadLines (lines : List Str) : Dict :=
  lines.foldl loadLine []

/-- `load_config` (`menuconfig.py` lines 8-35): `none` models a missing file
(`os.path.exists` false), in which case the initial empty dict is returned. -/
def load_config : Option (List Str) → Dict
  | none => []
  | some lines => loadLines lines

/-- The line `save_config` writes for one option (`menuconfig.py` lines 42-51):
`isinstance(value, bool)` is tested before `isinstance(value, int)`. -/
def saveLine (k : Str) (v : PyVal) : Str :=
  if isinstBool v then
    (if pyTruthy v then k ++ chs "=y" else '#' :: k ++ chs " is not set")
  else if isinstInt v then k ++ '=' :: pyStrOf v
  else k ++ '=' :: '"' :: pyStrOf v ++ ['\"']

/-- `save_config` (`menuconfig.py` lines 37-51) as the list of lines written. -/
def save_lines (d : Dict) : List Str :=
  chs "# LittleKernel Configuration" :: [] :: (sortKeys d).map (fun p => saveLine p.1 p.2)

/-- The line `view_config` prints for one option (`menuconfig.py` lines 262-271);
its dispatch mirrors `save_config` exactly. -/
def viewLine (k : Str) (v : PyVal) : Str :=
  if isinstBool v then
    (if pyTruthy v then k ++ chs "=y" else '#' :: k ++ chs " is not set")
  else if isinstInt v then k ++ '=' :: pyStrOf v
  else k ++ '=' :: '"' :: pyStrOf v ++ ['\"']

/-- `view_config` (`menuconfig.py` lines 255-274) as the list of option lines printed. -/
def view_lines (d : Dict) : List Str :=
  (sortKeys d).map (fun p => viewLine p.1 p.2)

/-- The default option set of `main` (`menuconfig.py` lines 285-302). -/
def default_config : Dict :=
  [ (chs "CONFIG_X86", .bool true)
  , (chs "CONFIG_SERIAL_CONSOLE", .bool true)
  , (chs "CONFIG_VGA_CONSOLE", .bool true)
  , (chs "CONFIG_KERNEL_DEBUG", .bool true)
  , (chs "CONFIG_VERBOSE_LOG", .bool false)
  , (chs "CONFIG_RUNTIME_CONFIG", .bool true)
  , (chs "CONFIG_HAL", .bool true)
  , (chs "CONFIG_PROFILING", .bool false)
  , (chs "CONFIG_MODULES", .bool true)
  , (chs "CONFIG_PCI", .bool true)
  , (chs "CONFIG_TIMER_HZ", .int 100)
  , (chs "CONFIG_MAX_PROCESSES", .int 128)
  , (chs "CONFIG_KERNEL_HEAP_SIZE", .int 16)
  , (chs "CONFIG_EARLY_MEM", .bool true)
  , (chs "CONFIG_HW_DIAGNOSTICS", .bool true)
  , (chs "CONFIG_ERROR_HANDLING", .bool true) ]

/-- The starting model of `main` (`menuconfig.py` lines 276-305): load the
config file, and substitute the defaults when the result is empty. -/
def main_initial_config (file : Option (List Str)) : Dict :=
  let c := load_config file
  if c = [] then default_config else c

/-- The `choice == '1'` transition of `display_menu` (`menuconfig.py` lines
83-86): on success of the dialog tool, `config.update(load_config(".config"))`;
on failure the model is left as it is. `ok` is the result of
`use_dialog_interface()`, `disk` the on-disk config file after the call. -/
def dialog_choice (config : Dict) (ok : Bool) (disk : Option (List Str)) : Dict :=
  if ok then dictUpdate config (load_config disk) else config

/-- The filtered listing of `toggle_bool_options` (`menuconfig.py` line 138). -/
def bool_options (config : Dict) : Dict :=
  config.filter (fun p => isinstBool p.2)

/-- The filtered listing of `set_int_options` (`menuconfig.py` line 176);
booleans pass `isinstance(v, int)` and are therefore listed too. -/
def int_options (config : Dict) : Dict :=
  config.filter (fun p => isinstInt p.2)

/-- The filtered listing of `set_string_options` (`menuconfig.py` line 218). -/
def str_options (config : Dict) : Dict :=
  config.filter (fun p => isinstStr p.2 && !isinstBool p.2)

/-- `toggle_bool_options` (`menuconfig.py` lines 136-172) as a transition on
the model; `inp` is the text typed at the selection prompt.  A non-numeric
input raises `ValueError`, selecting `0` or an out-of-range index only
prints a message; none of those mutate the model. -/
def toggle_bool_options (config : Dict) (inp : Str) : Dict :=
  if bool_options config = [] then config
  else match pyInt? (pyStrip inp) with
    | none => config
    | some c =>
      if c = 0 then config
      else if 1 ≤ c ∧ c ≤ (bool_options config).length then
        match (bool_options config)[(c - 1).toNat]? with
        | some p =>
          match lookupStr p.1 config with
          | some v => dictSet config p.1 (pyNot v)
          | none => config
        | none => config
      else config

/-- `set_int_options` (`menuconfig.py` lines 174-214); `inp` is the selection
prompt input and `newVal` the replacement-value input.  An unparseable
replacement keeps the current value. -/
def set_int_options (config : Dict) (inp newVal : Str) : Dict :=
  if int_options config = [] then config
  else match pyInt? (pyStrip inp) with
    | none => config
    | some c =>
      if c = 0 then config
      else if 1 ≤ c ∧ c ≤ (int_options config).length then
        match (int_options config)[(c - 1).toNat]? with
        | some p =>
          match pyInt? (pyStrip newVal) with
          | some n => dictSet config p.1 (.int n)
          | none => config
        | none => config
      else config

/-- `set_string_options` (`menuconfig.py` lines 216-253); the stripped
replacement input is stored unconditionally for a valid selection. -/
def set_string_options (config : Dict) (inp newVal : Str) : Dict :=
  if str_options config = [] then config
  else match pyInt? (pyStrip inp) with
    | none => config
    | some c =>
      if c = 0 then config
      else if 1 ≤ c ∧ c ≤ (str_options config).length then
        match (str_options config)[(c - 1).toNat]? with
        | some p => dictSet config p.1 (.str (pyStrip newVal))
        | none => config
      else config

/-!
Embedding of `scripts/config_header_generator.py`.
-/

/-- Model of Python's `value.strip('"')`: remove all leading and trailing
double-quote characters. -/
def stripQuotes (v : Str) : Str :=
  dropTrail (· = '"') (v.dropWhile (· = '"'))

def trueTokens : List Str := [chs "y", chs "yes", chs "true"]

def falseTokens : List Str := [chs "n", chs "no", chs "false"]

/-- Value classification of `generate_config_header` (`config_header_generator.py`
lines 36-47): quoted values are re-wrapped in quotes and tagged `string`,
case-insensitive boolean tokens become `1`/`0` tagged `boolean`, and every
other value is passed through verbatim tagged `numeric`. -/
def classifyValue (v : Str) : Str × Str :=
  if v.head? = some '"' ∧ v.reverse.head? = some '"' then
    ('"' :: stripQuotes v ++ ['"'], chs "string")
  else if strLower v ∈ trueTokens then (chs "1", chs "boolean")
  else if strLower v ∈ falseTokens then (chs "0", chs "boolean")
  else (v, chs "numeric")

/-- One iteration of the line loop of `generate_config_header`
(`config_header_generator.py` lines 19-47), producing at most one
`(name, value, type)` triple. -/
def genLine (line : Str) : Option (Str × Str × Str) :=
  let l := pyStrip line
  if l = [] ∨ l.head? = some '#' then
    if startsList (chs "# CONFIG_") l = true ∧ hasSub (chs "is not set") l = true then
      some (sliceFromTwoToFind (chs " is not set") l, chs "0", chs "disabled")
    else none
  else if '=' ∈ l then
    let value := classifyValue (pyStrip (l.dropWhile (· ≠ '=')).tail)
    some (pyStrip (l.takeWhile (· ≠ '=')), value.1, value.2)
  else none

/-- The `defines` list accumulated by `generate_config_header`. -/
def genDefines (lines : List Str) : List (Str × Str × Str) :=
  lines.filterMap genLine

/-- The `#define` line of one guarded block (`config_header_generator.py` line 58). -/
def defineLine (n v t : Str) : Str :=
  chs "#define " ++ n ++ ' ' :: v ++ chs "  /* " ++ t ++ chs " */"

/-- The four lines written for one define (`config_header_generator.py` lines 56-60):
an `#ifndef` guard, the `#define`, `#endif`, and a blank line. -/
def defineBlockLines (n v t : Str) : List Str :=
  [chs "#ifndef " ++ n, defineLine n v t, chs "#endif", []]

/-- The include-guard macro written by `generate_config_header`
(`config_header_generator.py` lines 52-53 and 62). -/
def guardMacro : Str := chs "_KERNEL_CONFIG_DEFINES_H"

/-- The default `header_file` argument of `generate_config_header`. -/
def defaultHeaderFile : Str := chs "kernel_config_defines.h"

/-- Modelled from the spec: the spec states the file-level guard macro name is
"derived from the output file's logical name"; the code hardcodes the macro.
This derivation, to be compared with `guardMacro`, prepends an underscore,
upper-cases letters and replaces the dot. -/
def specGuardOfFileName (f : Str) : Str :=
  '_' :: f.map (fun c => if c = '.' then '_' else charUpper c)

/-- The lines of the generated header (`config_header_generator.py` lines
50-62); each `f.write` ends in a newline, so the writes are exactly these
lines. -/
def headerLines (ds : List (Str × Str × Str)) : List Str :=
  [ chs "/* Auto-generated from .config - DO NOT EDIT */"
  , chs "#ifndef " ++ guardMacro
  , chs "#define " ++ guardMacro
  , [] ]
  ++ (ds.map (fun d => defineBlockLines d.1 d.2.1 d.2.2)).flatten
  ++ [chs "#endif /* " ++ guardMacro ++ chs " */"]

/-- Concatenate lines into file text, one `\n` after each line. -/
def linesText (ls : List Str) : Str :=
  (ls.map (fun l => l ++ ['\n'])).flatten

/-- The full text of the generated header for a given `defines` list. -/
def headerText (ds : List (Str × Str × Str)) : Str :=
  linesText (headerLines ds)

/-- `generate_config_header` (`config_header_generator.py` lines 10-65) at the
file level: a missing config file (`none`) is a hard failure — an error is
reported, no header is produced; otherwise the header text is written. -/
def generate_config_header : Option (List Str) → Option Str
  | none => none
  | some lines => some (headerText (genDefines lines))

/-- The scenario input file of the spec. -/
def scenarioLines : List Str :=
  [ chs "CONFIG_PCI=y"
  , chs "# CONFIG_USB is not set"
  , chs "CONFIG_TIMER_HZ=100"
  , chs "CONFIG_NAME=\"LittleKernel\"" ]

/-!
Canonical config texts and the load/save round trip.
-/

/-- Characters allowed in a canonical option name: no `=`, no `#`, no whitespace. -/
def goodChar (c : Char) : Bool :=
  !(c = '=' || c = '#' || isPySpace c)

/-- A canonical option name: nonempty, made of `goodChar`s. -/
def goodNameB (k : Str) : Bool :=
  !k.isEmpty && k.all goodChar

/-- A line in one of the four canonical save forms: `NAME=y`,
`#NAME is not set`, `NAME=<decimal integer>`, `NAME="s"`. -/
inductive CanonicalLine : Str → Prop where
  | yLine (k l : Str) : goodNameB k = true → l = k ++ chs "=y" → CanonicalLine l
  | notSetLine (k l : Str) : goodNameB k = true →
      l = '#' :: k ++ chs " is not set" → CanonicalLine l
  | intLine (k l : Str) (i : Int) : goodNameB k = true →
      l = k ++ '=' :: pyIntRepr i → CanonicalLine l
  | strLine (k s l : Str) : goodNameB k = true → (∀ c ∈ s, c ≠ '\n') →
      l = k ++ '=' :: '"' :: (s ++ ['"']) → CanonicalLine l

/-- Invariant of dicts produced by loading canonical text: unique keys,
canonical names, and no `False` values (the disabled form is never parsed
because the handler for it is unreachable). -/
def DictOK (d : Dict) : Prop :=
  (keysOf d).Nodup ∧ ∀ p ∈ d, goodNameB p.1 = true ∧ p.2 ≠ PyVal.bool false

/-- A sample canonical config text using all four canonical save forms. -/
def demoLines : List Str :=
  [ chs "CONFIG_PCI=y"
  , chs "#CONFIG_USB is not set"
  , chs "CONFIG_TIMER_HZ=100"
  , chs "CONFIG_NAME=\"LittleKernel\"" ]

/-- The in-memory model before the dialog transition, and the on-disk file
after it, used in the C8 counterexample. -/
def cfgC8 : Dict := [(chs "CONFIG_A", PyVal.bool true)]

def diskC8 : Option (List Str) := some [chs "CONFIG_B=5"]

/-- The model of the C9 counterexample: one boolean and one integer option. -/
def cfgC9 : Dict := [(chs "CONFIG_PCI", PyVal.bool true), (chs "CONFIG_TIMER_HZ", PyVal.int 100)]

/-!
Utility lemmas about the string model.
-/

theorem dropWhile_eq_self_of_head {p : Char → Bool} {l : Str}
    (h : ∀ c, l.head? = some c → p c = false) : l.dropWhile p = l := by
  cases l with
  | nil => rfl
  | cons a t => simp [List.dropWhile_cons, h a rfl]

theorem pyStrip_eq_self {l : Str}
    (h1 : ∀ c, l.head? = some c → isPySpace c = false)
    (h2 : ∀ c, l.reverse.head? = some c → isPySpace c = false) :
    pyStrip l = l := by
  unfold pyStrip dropTrail
  rw [dropWhile_eq_self_of_head h1, dropWhile_eq_self_of_head h2, List.reverse_reverse]

theorem pyStrip_eq_self_of_all {l : Str}
    (h : ∀ c ∈ l, isPySpace c = false) : pyStrip l = l := by
  refine pyStrip_eq_self (fun c hc => h c ?_) (fun c hc => h c ?_)
  · exact List.mem_of_mem_head? hc
  · exact (List.mem_reverse).1 (List.mem_of_mem_head? hc)

theorem headQ_append (k : Str) {r : Str} (hk : k ≠ []) : (k ++ r).head? = k.head? := by
  cases k with
  | nil => exact absurd rfl hk
  | cons a t => rfl

theorem takeWhile_append_stop {p : Char → Bool} {k r : Str} {x : Char}
    (hk : ∀ c ∈ k, p c = true) (hx : p x = false) :
    (k ++ x :: r).takeWhile p = k := by
  induction k with
  | nil => simp [List.takeWhile_cons, hx]
  | cons a t ih =>
    have ha : p a = true := hk a (by simp)
    simp only [List.cons_append, List.takeWhile_cons, ha]
    simp [ih (fun c hc => hk c (by simp [hc]))]

theorem dropWhile_append_stop {p : Char → Bool} {k r : Str} {x : Char}
    (hk : ∀ c ∈ k, p c = true) (hx : p x = false) :
    (k ++ x :: r).dropWhile p = x :: r := by
  induction k with
  | nil => simp [List.dropWhile_cons, hx]
  | cons a t ih =>
    have ha : p a = true := hk a (by simp)
    simp only [List.cons_append, List.dropWhile_cons, ha]
    simp [ih (fun c hc => hk c (by simp [hc]))]

/-!
Lemmas about the decimal digits model.
-/

theorem digitVal_digitChar {n : Nat} (h : n < 10) : digitVal (digitChar n) = n := by
  interval_cases n <;> decide

theorem isPyDigit_digitChar {n : Nat} (h : n < 10) : isPyDigit (digitChar n) = true := by
  interval_cases n <;> decide

theorem natOfDigits_append_one (l : Str) (c : Char) :
    natOfDigits (l ++ [c]) = natOfDigits l * 10 + digitVal c := by
  simp [natOfDigits, List.foldl_append]

theorem digitsAux_spec : ∀ fuel n, n < fuel →
    digitsAux fuel n ≠ [] ∧ (∀ c ∈ digitsAux fuel n, isPyDigit c = true) ∧
      natOfDigits (digitsAux fuel n) = n := by
  intro fuel
  induction fuel with
  | zero => intro n hn; omega
  | succ f ih =>
    intro n hn
    by_cases h10 : n < 10
    · refine ⟨by simp [digitsAux, h10], ?_, ?_⟩
      · intro c hc
        simp [digitsAux, h10] at hc
        subst hc
        exact isPyDigit_digitChar h10
      · simp [digitsAux, h10, natOfDigits, digitVal_digitChar h10]
    · have hdiv : n / 10 < f := by omega
      obtain ⟨h1, h2, h3⟩ := ih (n / 10) hdiv
      refine ⟨by simp [digitsAux, h10], ?_, ?_⟩
      · intro c hc
        simp only [digitsAux, if_neg h10, List.mem_append, List.mem_singleton] at hc
        rcases hc with hc | hc
        · exact h2 c hc
        · subst hc; exact isPyDigit_digitChar (Nat.mod_lt n (by omega))
      · simp only [digitsAux, if_neg h10]
        rw [natOfDigits_append_one, h3, digitVal_digitChar (Nat.mod_lt n (by omega))]
        omega

theorem digitsOfNat_ne_nil (n : Nat) : digitsOfNat n ≠ [] :=
  (digitsAux_spec (n + 1) n (by omega)).1

theorem digitsOfNat_digits (n : Nat) : ∀ c ∈ digitsOfNat n, isPyDigit c = true :=
  (digitsAux_spec (n + 1) n (by omega)).2.1

theorem natOfDigits_digitsOfNat (n : Nat) : natOfDigits (digitsOfNat n) = n :=
  (digitsAux_spec (n + 1) n (by omega)).2.2

theorem pyIntRepr_ne_nil (i : Int) : pyIntRepr i ≠ [] := by
  cases i with
  | ofNat n => exact digitsOfNat_ne_nil n
  | negSucc n => simp [pyIntRepr]

theorem pyIntRepr_chars (i : Int) :
    ∀ c ∈ pyIntRepr i, isPyDigit c = true ∨ c = '-' := by
  cases i with
  | ofNat n => exact fun c hc => Or.inl (digitsOfNat_digits n c hc)
  | negSucc n =>
    intro c hc
    simp only [pyIntRepr, List.mem_cons] at hc
    rcases hc with hc | hc
    · exact Or.inr hc
    · exact Or.inl (digitsOfNat_digits (n + 1) c hc)

theorem isPyDigit_not_space {c : Char} (h : isPyDigit c = true) : isPySpace c = false := by
  simp only [isPyDigit, Bool.and_eq_true, decide_eq_true_eq] at h
  simp only [isPySpace, decide_eq_false_iff_not]
  omega

theorem isPyDigit_not_intspace {c : Char} (h : isPyDigit c = true) : isIntSpace c = false := by
  simp only [isPyDigit, Bool.and_eq_true, decide_eq_true_eq] at h
  simp only [isIntSpace, decide_eq_false_iff_not]
  omega

theorem intStrip_eq_self_of_all {l : Str}
    (h : ∀ c ∈ l, isIntSpace c = false) : intStrip l = l := by
  unfold intStrip dropTrail
  rw [dropWhile_eq_self_of_head (fun c hc => h c (List.mem_of_mem_head? hc))]
  rw [dropWhile_eq_self_of_head
    (fun c hc => h c ((List.mem_reverse).1 (List.mem_of_mem_head? hc)))]
  rw [List.reverse_reverse]

theorem isPyDigit_ne_underscore {c : Char} (h : isPyDigit c = true) : c ≠ '_' := by
  intro he
  rw [he] at h
  exact absurd h (by decide)

theorem pyDigitsTail_of_digits : ∀ {l : Str}, (∀ c ∈ l, isPyDigit c = true) →
    pyDigitsTail l = true := by
  intro l
  induction l with
  | nil => exact fun _ => rfl
  | cons c rest ih =>
    intro h
    have hc := h c (by simp)
    unfold pyDigitsTail
    rw [if_neg (isPyDigit_ne_underscore hc), hc, Bool.true_and]
    exact ih (fun x hx => h x (by simp [hx]))

theorem pyDigitsRun_of_digits {l : Str} (hne : l ≠ [])
    (h : ∀ c ∈ l, isPyDigit c = true) : pyDigitsRun l = true := by
  obtain ⟨c, t, rfl⟩ := List.exists_cons_of_ne_nil hne
  simp only [pyDigitsRun]
  rw [h c (by simp), Bool.true_and]
  exact pyDigitsTail_of_digits (fun x hx => h x (by simp [hx]))

theorem digits_filter_underscore {l : Str} (h : ∀ c ∈ l, isPyDigit c = true) :
    l.filter (· ≠ '_') = l := by
  rw [List.filter_eq_self]
  intro c hc
  simp only [decide_eq_true_eq]
  exact isPyDigit_ne_underscore (h c hc)

theorem pyIntRepr_not_space (i : Int) : ∀ c ∈ pyIntRepr i, isPySpace c = false := by
  intro c hc
  rcases pyIntRepr_chars i c hc with h | h
  · exact isPyDigit_not_space h
  · subst h; decide

theorem pyStrip_pyIntRepr (i : Int) : pyStrip (pyIntRepr i) = pyIntRepr i :=
  pyStrip_eq_self_of_all (pyIntRepr_not_space i)

theorem pyInt?_pyIntRepr (i : Int) : pyInt? (pyIntRepr i) = some i := by
  cases i with
  | ofNat n =>
    have hne := digitsOfNat_ne_nil n
    have hd := digitsOfNat_digits n
    simp only [pyIntRepr]
    obtain ⟨c, t, hct⟩ := List.exists_cons_of_ne_nil hne
    have hcd : isPyDigit c = true := hd c (by rw [hct]; simp)
    have hcnat : 48 ≤ c.toNat ∧ c.toNat ≤ 57 := by
      simpa [isPyDigit, Bool.and_eq_true, decide_eq_true_eq] using hcd
    unfold pyInt?
    rw [intStrip_eq_self_of_all (fun ch hch => isPyDigit_not_intspace (hd ch hch))]
    rw [if_neg hne]
    rw [if_neg (by rw [hct]; intro h; simp at h; subst h; revert hcnat; decide)]
    rw [if_neg (by rw [hct]; intro h; simp at h; subst h; revert hcnat; decide)]
    rw [if_pos (pyDigitsRun_of_digits hne hd)]
    rw [digits_filter_underscore hd, natOfDigits_digitsOfNat]
    rfl
  | negSucc n =>
    have hne := digitsOfNat_ne_nil (n + 1)
    have hd := digitsOfNat_digits (n + 1)
    simp only [pyIntRepr]
    unfold pyInt?
    rw [intStrip_eq_self_of_all ?hall]
    case hall =>
      intro c hc
      rcases List.mem_cons.1 hc with h | h
      · subst h; decide
      · exact isPyDigit_not_intspace (hd c h)
    rw [if_neg (by simp)]
    rw [if_pos (by rfl)]
    rw [if_pos (by simpa using pyDigitsRun_of_digits hne hd)]
    simp only [List.tail_cons]
    rw [digits_filter_underscore hd, natOfDigits_digitsOfNat]
    congr 1

/-!
Lemmas about the dict model.
-/

theorem lookupStr_eq_none_iff (q : Str) (d : Dict) :
    lookupStr q d = none ↔ q ∉ keysOf d := by
  induction d with
  | nil => simp [lookupStr, keysOf]
  | cons p rest ih =>
    by_cases h : p.1 = q
    · simp [lookupStr, h, keysOf]
    · simp only [lookupStr, if_neg h, keysOf, List.map_cons, List.mem_cons]
      rw [ih]
      simp only [keysOf]
      constructor
      · intro hn hc
        rcases hc with he | hm
        · exact h he.symm
        · exact hn hm
      · intro hn hm
        exact hn (Or.inr hm)

theorem lookupStr_append_none (q : Str) (d e : Dict) (h : lookupStr q d = none) :
    lookupStr q (d ++ e) = lookupStr q e := by
  induction d with
  | nil => rfl
  | cons p rest ih =>
    by_cases hp : p.1 = q
    · simp [lookupStr, hp] at h
    · simp only [lookupStr, if_neg hp] at h
      simp only [List.cons_append, lookupStr, if_neg hp]
      exact ih h

theorem lookupStr_append_some (q : Str) (d e : Dict) (v : PyVal)
    (h : lookupStr q d = some v) : lookupStr q (d ++ e) = some v := by
  induction d with
  | nil => simp [lookupStr] at h
  | cons p rest ih =>
    by_cases hp : p.1 = q
    · simp only [lookupStr, if_pos hp] at h
      simp only [List.cons_append, lookupStr, if_pos hp]
      exact h
    · simp only [lookupStr, if_neg hp] at h
      simp only [List.cons_append, lookupStr, if_neg hp]
      exact ih h

theorem lookupStr_some_mem {q : Str} {d : Dict} {v : PyVal}
    (h : lookupStr q d = some v) : (q, v) ∈ d := by
  induction d with
  | nil => simp [lookupStr] at h
  | cons p rest ih =>
    by_cases hp : p.1 = q
    · simp only [lookupStr, if_pos hp, Option.some.injEq] at h
      have hpv : p = (q, v) := by
        cases p
        simp only [Prod.mk.injEq]
        exact ⟨hp, h⟩
      exact hpv ▸ List.mem_cons_self p rest
    · simp only [lookupStr, if_neg hp] at h
      exact List.mem_cons_of_mem _ (ih h)

theorem mem_lookupStr {q : Str} {d : Dict} {v : PyVal}
    (hnd : (keysOf d).Nodup) (h : (q, v) ∈ d) : lookupStr q d = some v := by
  induction d with
  | nil => simp at h
  | cons p rest ih =>
    simp only [keysOf, List.map_cons, List.nodup_cons] at hnd
    rcases List.mem_cons.1 h with he | hm
    · rw [← he]
      simp [lookupStr]
    · have hq : p.1 ≠ q := by
        intro hpq
        exact hnd.1 (hpq ▸ (List.mem_map_of_mem Prod.fst hm))
      simp only [lookupStr, if_neg hq]
      exact ih hnd.2 hm

theorem lookupStr_perm {d d' : Dict} (hp : d.Perm d') (hnd : (keysOf d).Nodup)
    (q : Str) : lookupStr q d = lookupStr q d' := by
  have hnd' : (keysOf d').Nodup := (hp.map Prod.fst).nodup hnd
  cases hv : lookupStr q d with
  | none =>
    rw [eq_comm, lookupStr_eq_none_iff]
    rw [lookupStr_eq_none_iff] at hv
    intro hk
    exact hv ((hp.map Prod.fst).mem_iff.2 hk)
  | some v =>
    exact (mem_lookupStr hnd' (hp.mem_iff.1 (lookupStr_some_mem hv))).symm

theorem keysOf_dictSet (d : Dict) (k : Str) (v : PyVal) :
    keysOf (dictSet d k v) = if k ∈ keysOf d then keysOf d else keysOf d ++ [k] := by
  unfold dictSet
  by_cases h : k ∈ keysOf d
  · rw [if_pos h, if_pos h]
    unfold keysOf
    rw [List.map_map]
    apply List.map_congr_left
    intro p _
    by_cases hp : p.1 = k
    · simp [Function.comp, hp]
    · simp [Function.comp, hp]
  · rw [if_neg h, if_neg h]
    simp [keysOf]

theorem nodup_keys_dictSet {d : Dict} (k : Str) (v : PyVal)
    (hnd : (keysOf d).Nodup) : (keysOf (dictSet d k v)).Nodup := by
  rw [keysOf_dictSet]
  by_cases h : k ∈ keysOf d
  · simpa [h] using hnd
  · simp only [if_neg h]
    simpa [List.nodup_append, h] using hnd

theorem lookup_mapSet_ne {q k : Str} {v : PyVal} (d : Dict) (hq : q ≠ k) :
    lookupStr q (d.map (fun p => if p.1 = k then (k, v) else p)) = lookupStr q d := by
  induction d with
  | nil => rfl
  | cons p rest ih =>
    by_cases hp : p.1 = k
    · simp only [List.map_cons, if_pos hp, lookupStr]
      rw [if_neg (fun he : k = q => hq he.symm), if_neg (fun he : p.1 = q => hq (hp ▸ he).symm), ih]
    · simp only [List.map_cons, if_neg hp, lookupStr]
      by_cases hpq : p.1 = q
      · simp [hpq]
      · rw [if_neg hpq, if_neg hpq, ih]

theorem lookup_mapSet_eq {k : Str} {v : PyVal} (d : Dict) (hm : k ∈ keysOf d) :
    lookupStr k (d.map (fun p => if p.1 = k then (k, v) else p)) = some v := by
  induction d with
  | nil => simp [keysOf] at hm
  | cons p rest ih =>
    by_cases hp : p.1 = k
    · simp [List.map_cons, if_pos hp, lookupStr]
    · simp only [keysOf, List.map_cons, List.mem_cons] at hm
      rcases hm with he | hm'
      · exact absurd he.symm hp
      · simp only [List.map_cons, if_neg hp, lookupStr]
        exact ih hm'

theorem lookupStr_dictSet (d : Dict) (k q : Str) (v : PyVal) :
    lookupStr q (dictSet d k v) = if q = k then some v else lookupStr q d := by
  unfold dictSet
  by_cases hm : k ∈ keysOf d
  · rw [if_pos hm]
    by_cases hq : q = k
    · subst hq
      rw [if_pos rfl, lookup_mapSet_eq d hm]
    · rw [if_neg hq, lookup_mapSet_ne d hq]
  · rw [if_neg hm]
    by_cases hq : q = k
    · subst hq
      have hnone : lookupStr q d = none := (lookupStr_eq_none_iff q d).2 hm
      rw [lookupStr_append_none _ _ _ hnone, if_pos rfl]
      simp [lookupStr]
    · rw [if_neg hq]
      cases hv : lookupStr q d with
      | none =>
        rw [lookupStr_append_none _ _ _ hv]
        simp only [lookupStr]
        rw [if_neg (fun he : k = q => hq he.symm)]
      | some w =>
        rw [lookupStr_append_some _ _ _ _ hv]

theorem lookup_foldSet_of_not_mem {q : Str} (ps : Dict) (d : Dict)
    (h : q ∉ keysOf ps) :
    lookupStr q (ps.foldl (fun a p => dictSet a p.1 p.2) d) = lookupStr q d := by
  induction ps generalizing d with
  | nil => rfl
  | cons p rest ih =>
    simp only [keysOf, List.map_cons, List.mem_cons] at h
    push_neg at h
    simp only [List.foldl_cons]
    have h2 : q ∉ keysOf rest := by
      simp only [keysOf]
      exact h.2
    rw [ih _ h2, lookupStr_dictSet, if_neg h.1]

theorem lookup_foldSet_of_mem {q : Str} {v : PyVal} (ps : Dict) (d : Dict)
    (hnd : (keysOf ps).Nodup) (hm : (q, v) ∈ ps) :
    lookupStr q (ps.foldl (fun a p => dictSet a p.1 p.2) d) = some v := by
  induction ps generalizing d with
  | nil => simp at hm
  | cons p rest ih =>
    simp only [keysOf, List.map_cons, List.nodup_cons] at hnd
    simp only [List.foldl_cons]
    rcases List.mem_cons.1 hm with he | hm'
    · have hq : q = p.1 := by rw [← he]
      have hnm : q ∉ keysOf rest := by
        simp only [keysOf]
        exact hq ▸ hnd.1
      rw [lookup_foldSet_of_not_mem rest _ hnm, lookupStr_dictSet, if_pos hq]
      rw [← he]
    · exact ih _ hnd.2 hm'

theorem lookupStr_dictOfPairs (ps : Dict) (hnd : (keysOf ps).Nodup) (q : Str) :
    lookupStr q (dictOfPairs ps) = lookupStr q ps := by
  cases hv : lookupStr q ps with
  | none =>
    rw [lookupStr_eq_none_iff] at hv
    rw [dictOfPairs, lookup_foldSet_of_not_mem ps [] hv]
    rfl
  | some v =>
    exact lookup_foldSet_of_mem ps [] hnd (lookupStr_some_mem hv)

theorem lookupStr_dictUpdate_some {q : Str} {other : Dict} {v : PyVal} (d : Dict)
    (hnd : (keysOf other).Nodup) (h : lookupStr q other = some v) :
    lookupStr q (dictUpdate d other) = some v :=
  lookup_foldSet_of_mem other d hnd (lookupStr_some_mem h)

theorem lookupStr_dictUpdate_none {q : Str} {other : Dict} (d : Dict)
    (h : lookupStr q other = none) :
    lookupStr q (dictUpdate d other) = lookupStr q d :=
  lookup_foldSet_of_not_mem other d ((lookupStr_eq_none_iff q other).1 h)

theorem insertSorted_perm (x : Str × PyVal) (l : Dict) :
    (insertSorted x l).Perm (x :: l) := by
  induction l with
  | nil => exact List.Perm.refl _
  | cons y ys ih =>
    by_cases h : keyLe x.1 y.1
    · simp [insertSorted, h]
    · simp only [insertSorted, if_neg h]
      exact (ih.cons y).trans (List.Perm.swap x y ys)

theorem sortKeys_perm (d : Dict) : (sortKeys d).Perm d := by
  induction d with
  | nil => exact List.Perm.refl _
  | cons p rest ih =>
    exact (insertSorted_perm p (sortKeys rest)).trans (ih.cons p)

theorem goodChar_not_space {c : Char} (h : goodChar c = true) : isPySpace c = false := by
  simp only [goodChar, Bool.not_eq_eq_eq_not, Bool.not_true, Bool.or_eq_false_iff,
    decide_eq_false_iff_not] at h
  exact h.2

theorem goodChar_ne_hash {c : Char} (h : goodChar c = true) : c ≠ '#' := by
  simp only [goodChar, Bool.not_eq_eq_eq_not, Bool.not_true, Bool.or_eq_false_iff,
    decide_eq_false_iff_not] at h
  exact h.1.2

theorem goodChar_ne_eq {c : Char} (h : goodChar c = true) : c ≠ '=' := by
  simp only [goodChar, Bool.not_eq_eq_eq_not, Bool.not_true, Bool.or_eq_false_iff,
    decide_eq_false_iff_not] at h
  exact h.1.1

theorem goodNameB_ne_nil {k : Str} (h : goodNameB k = true) : k ≠ [] := by
  intro he
  subst he
  exact absurd h (by decide)

theorem goodNameB_all {k : Str} (h : goodNameB k = true) : ∀ c ∈ k, goodChar c = true := by
  simp only [goodNameB, Bool.and_eq_true, List.all_eq_true] at h
  exact h.2

/-- Stripping an entry line `k ++ rest` is the identity when the name is
canonical and the trailing character is not whitespace. -/
theorem pyStrip_entry {k rest : Str} (hk : goodNameB k = true) (hr : rest ≠ [])
    (hlast : ∀ c, rest.reverse.head? = some c → isPySpace c = false) :
    pyStrip (k ++ rest) = k ++ rest := by
  have hkne := goodNameB_ne_nil hk
  refine pyStrip_eq_self ?_ ?_
  · intro c hc
    rw [headQ_append _ hkne] at hc
    exact goodChar_not_space (goodNameB_all hk c (List.mem_of_mem_head? hc))
  · intro c hc
    rw [List.reverse_append] at hc
    have hrne : rest.reverse ≠ [] := by simpa using hr
    rw [headQ_append _ hrne] at hc
    exact hlast c hc

/-- The head of an entry line is the head of its canonical name, hence not `#`. -/
theorem entry_head_ne_hash {k rest : Str} (hk : goodNameB k = true) :
    (k ++ rest).head? ≠ some '#' := by
  have hkne := goodNameB_ne_nil hk
  rw [headQ_append _ hkne]
  intro hc
  exact goodChar_ne_hash (goodNameB_all hk _ (List.mem_of_mem_head? hc)) rfl

/-- A line `k ++ '=' :: vtext` with a canonical name is loaded as an
assignment of `parseValue vtext` to `k`. -/
theorem loadLine_entry (d : Dict) {k : Str} (vtext : Str) (hk : goodNameB k = true)
    (hlast : ∀ c, vtext.reverse.head? = some c → isPySpace c = false) :
    loadLine d (k ++ '=' :: vtext) = dictSet d k (parseValue vtext) := by
  have hstrip : pyStrip (k ++ '=' :: vtext) = k ++ '=' :: vtext := by
    refine pyStrip_entry hk (by simp) ?_
    intro c hc
    rw [List.reverse_cons] at hc
    cases hv : vtext.reverse with
    | nil =>
      rw [hv] at hc
      simp at hc
      subst hc
      decide
    | cons a t =>
      rw [hv] at hc
      simp only [List.cons_append, List.head?_cons, Option.some.injEq] at hc
      subst hc
      exact hlast a (by rw [hv]; rfl)
  unfold loadLine
  simp only [hstrip]
  rw [if_pos ⟨by simp, entry_head_ne_hash hk⟩]
  rw [if_pos (by simp)]
  have htake : (k ++ '=' :: vtext).takeWhile (· ≠ '=') = k := by
    refine takeWhile_append_stop ?_ (by simp)
    intro c hc
    simpa using goodChar_ne_eq (goodNameB_all hk c hc)
  have hdrop : (k ++ '=' :: vtext).dropWhile (· ≠ '=') = '=' :: vtext := by
    refine dropWhile_append_stop ?_ (by simp)
    intro c hc
    simpa using goodChar_ne_eq (goodNameB_all hk c hc)
  rw [htake, hdrop]
  rfl

/-- Lines whose stripped form is empty or starts with `#` are ignored by the
loader: the branch handling `# NAME is not set` sits inside the branch that
excludes `#`-initial lines, so it can never run. -/
theorem loadLine_skip (d : Dict) {line : Str}
    (h : pyStrip line = [] ∨ (pyStrip line).head? = some '#') :
    loadLine d line = d := by
  unfold loadLine
  rcases h with h | h
  · rw [if_neg]
    intro hc
    exact hc.1 h
  · rw [if_neg]
    intro hc
    exact hc.2 h

theorem parseValue_y : parseValue (chs "y") = PyVal.bool true := by decide

theorem parseValue_pyIntRepr (i : Int) : parseValue (pyIntRepr i) = PyVal.int i := by
  have hchars := pyIntRepr_chars i
  have hq : ¬((pyIntRepr i).head? = some '"' ∧ (pyIntRepr i).reverse.head? = some '"') := by
    intro hc
    have hm := List.mem_of_mem_head? hc.1
    rcases hchars _ hm with h | h
    · revert h; decide
    · exact absurd h (by decide)
  have hy : pyIntRepr i ≠ chs "y" := by
    intro hc
    have hm : 'y' ∈ pyIntRepr i := by rw [hc]; decide
    rcases hchars _ hm with h | h
    · revert h; decide
    · revert h; decide
  have hn : pyIntRepr i ≠ chs "n" := by
    intro hc
    have hm : 'n' ∈ pyIntRepr i := by rw [hc]; decide
    rcases hchars _ hm with h | h
    · revert h; decide
    · revert h; decide
  unfold parseValue
  rw [if_neg hq, if_neg hy, if_neg hn, pyInt?_pyIntRepr i]

theorem quoted_reverse_head (s : Str) :
    ('"' :: (s ++ ['"'])).reverse.head? = some '"' := by
  simp only [List.reverse_cons, List.reverse_append, List.reverse_singleton,
    List.reverse_nil, List.nil_append, List.singleton_append, List.cons_append,
    List.head?_cons]

theorem parseValue_quoted (s : Str) :
    parseValue ('"' :: (s ++ ['"'])) = PyVal.str s := by
  unfold parseValue
  rw [if_pos ⟨rfl, quoted_reverse_head s⟩]
  simp only [List.drop_one, List.tail_cons]
  rw [List.dropLast_concat]

/-- The stripped form of a disabled-form line starts with `#`, so the loader
ignores it. -/
theorem loadLine_notSet (d : Dict) {k : Str} :
    loadLine d ('#' :: k ++ chs " is not set") = d := by
  have hstrip : pyStrip ('#' :: k ++ chs " is not set")
      = '#' :: k ++ chs " is not set" := by
    refine pyStrip_eq_self ?_ ?_
    · intro c hc
      simp only [List.cons_append, List.head?_cons, Option.some.injEq] at hc
      subst hc
      decide
    · intro c hc
      rw [List.cons_append, List.reverse_cons, List.reverse_append] at hc
      have : ((chs " is not set").reverse ++ k.reverse ++ ['#']).head? = some 't' := by
        rw [headQ_append ((chs " is not set").reverse ++ k.reverse)
          (fun h => absurd (List.append_eq_nil.1 h).1 (by decide))]
        rw [headQ_append (chs " is not set").reverse (by decide)]
        decide
      rw [this] at hc
      cases hc
      decide
  apply loadLine_skip
  right
  rw [hstrip]
  simp

/-- `dictSet` preserves the canonical-dict invariant when the assigned pair
is itself canonical. -/
theorem DictOK_dictSet {d : Dict} {k : Str} {v : PyVal} (hd : DictOK d)
    (hk : goodNameB k = true) (hv : v ≠ PyVal.bool false) : DictOK (dictSet d k v) := by
  refine ⟨nodup_keys_dictSet k v hd.1, ?_⟩
  intro p hp
  unfold dictSet at hp
  by_cases hm : k ∈ keysOf d
  · rw [if_pos hm] at hp
    obtain ⟨p0, hp0, he⟩ := List.mem_map.1 hp
    by_cases h0 : p0.1 = k
    · rw [if_pos h0] at he
      rw [← he]
      exact ⟨hk, hv⟩
    · rw [if_neg h0] at he
      rw [← he]
      exact hd.2 p0 hp0
  · rw [if_neg hm] at hp
    rcases List.mem_append.1 hp with hp | hp
    · exact hd.2 p hp
    · rcases List.mem_singleton.1 hp with rfl
      exact ⟨hk, hv⟩

/-- Loading canonical lines from any canonical starting dict preserves the
invariant. -/
theorem loadLines_ok_aux : ∀ (lines : List Str) (d : Dict),
    (∀ l ∈ lines, CanonicalLine l) → DictOK d → DictOK (lines.foldl loadLine d) := by
  intro lines
  induction lines with
  | nil => exact fun d _ hd => hd
  | cons l rest ih =>
    intro d h hd
    have hl := h l (by simp)
    have hrest : ∀ x ∈ rest, CanonicalLine x := fun x hx => h x (by simp [hx])
    rw [List.foldl_cons]
    refine ih _ hrest ?_
    cases hl with
    | yLine k l hk he =>
      subst he
      rw [show k ++ chs "=y" = k ++ '=' :: chs "y" from rfl]
      rw [loadLine_entry d (chs "y") hk (by intro c hc; cases hc; decide)]
      rw [parseValue_y]
      exact DictOK_dictSet hd hk (by simp)
    | notSetLine k l hk he =>
      subst he
      rw [loadLine_notSet d]
      exact hd
    | intLine k l i hk he =>
      subst he
      rw [loadLine_entry d (pyIntRepr i) hk ?hlast]
      case hlast =>
        intro c hc
        exact pyIntRepr_not_space i c (by
          have := List.mem_of_mem_head? hc
          exact (List.mem_reverse).1 this)
      rw [parseValue_pyIntRepr]
      exact DictOK_dictSet hd hk (by simp)
    | strLine k s l hk hs he =>
      subst he
      rw [loadLine_entry d ('"' :: (s ++ ['"'])) hk ?hlast]
      case hlast =>
        intro c hc
        rw [quoted_reverse_head s] at hc
        cases hc
        decide
      rw [parseValue_quoted]
      exact DictOK_dictSet hd hk (by simp)

/-- Loading canonical text yields a canonical dict. -/
theorem loadLines_ok (lines : List Str) (h : ∀ l ∈ lines, CanonicalLine l) :
    DictOK (loadLines lines) :=
  loadLines_ok_aux lines [] h ⟨by simp [keysOf], by simp⟩

/-- The saved line of a canonical entry parses back to exactly that entry. -/
theorem loadLine_saveLine (d : Dict) {k : Str} {v : PyVal} (hk : goodNameB k = true)
    (hv : v ≠ PyVal.bool false) : loadLine d (saveLine k v) = dictSet d k v := by
  cases v with
  | bool b =>
    cases b with
    | false => exact absurd rfl hv
    | true =>
      have hs : saveLine k (PyVal.bool true) = k ++ '=' :: chs "y" := rfl
      rw [hs, loadLine_entry d (chs "y") hk (by intro c hc; cases hc; decide), parseValue_y]
  | int n =>
    have hs : saveLine k (PyVal.int n) = k ++ '=' :: pyIntRepr n := rfl
    rw [hs, loadLine_entry d (pyIntRepr n) hk ?hlast, parseValue_pyIntRepr]
    case hlast =>
      intro c hc
      exact pyIntRepr_not_space n c ((List.mem_reverse).1 (List.mem_of_mem_head? hc))
  | str s =>
    have hs : saveLine k (PyVal.str s) = k ++ '=' :: '"' :: (s ++ ['"']) := by
      simp [saveLine, isinstBool, isinstInt, PyVal.isBoolVal, PyVal.isIntVal, pyStrOf]
    rw [hs, loadLine_entry d ('"' :: (s ++ ['"'])) hk ?hlast, parseValue_quoted]
    case hlast =>
      intro c hc
      rw [quoted_reverse_head s] at hc
      cases hc
      decide

/-- Folding the loader over saved entry lines is folding `dictSet` over the
entries themselves. -/
theorem foldl_loadLine_saveLine (ps : Dict) : ∀ d : Dict,
    (∀ p ∈ ps, goodNameB p.1 = true ∧ p.2 ≠ PyVal.bool false) →
    (ps.map (fun p => saveLine p.1 p.2)).foldl loadLine d
      = ps.foldl (fun a p => dictSet a p.1 p.2) d := by
  induction ps with
  | nil => exact fun d _ => rfl
  | cons p rest ih =>
    intro d hmem
    simp only [List.map_cons, List.foldl_cons]
    rw [loadLine_saveLine d (hmem p (by simp)).1 (hmem p (by simp)).2]
    exact ih _ (fun q hq => hmem q (by simp [hq]))

/-- Loading the saved lines of a canonical dict builds `dictOfPairs` of its
sorted entries. -/
theorem loadLines_save_lines (d : Dict) (hd : DictOK d) :
    loadLines (save_lines d) = dictOfPairs (sortKeys d) := by
  unfold loadLines save_lines dictOfPairs
  rw [List.foldl_cons, loadLine_skip [] (Or.inr (by decide))]
  rw [List.foldl_cons, loadLine_skip [] (Or.inl (by decide))]
  exact foldl_loadLine_saveLine (sortKeys d) []
    (fun p hp => hd.2 p ((sortKeys_perm d).subset hp))

/-- Round trip at the dict level: loading the saved lines of a canonical dict
is lookup-equal to the dict itself. -/
theorem load_save_lookup (d : Dict) (hd : DictOK d) (q : Str) :
    lookupStr q (loadLines (save_lines d)) = lookupStr q d := by
  rw [loadLines_save_lines d hd]
  have hperm := sortKeys_perm d
  have hnd : (keysOf (sortKeys d)).Nodup := ((hperm.map Prod.fst).symm).nodup hd.1
  rw [lookupStr_dictOfPairs (sortKeys d) hnd q]
  exact lookupStr_perm hperm hnd q

/-!
Claim theorems.
-/

/-- C1: for any config text consisting only of the four canonical save forms
(`NAME=y`, `#NAME is not set`, `NAME=<decimal integer>`, `NAME="s"`), loading
the file, saving the resulting model and loading again yields a model that is
value-equal (same names, same typed values) to the model of the first load. -/
theorem C1_round_trip (ls : List Str) (h : ∀ l ∈ ls, CanonicalLine l) (q : Str) :
    lookupStr q (loadLines (save_lines (loadLines ls))) = lookupStr q (loadLines ls) :=
  load_save_lookup (loadLines ls) (loadLines_ok ls h) q

/-- Witness for C1: the round trip evaluated on a concrete canonical config. -/
theorem C1_round_trip_witness :
    lookupStr (chs "CONFIG_PCI") (loadLines (save_lines (loadLines demoLines)))
      = lookupStr (chs "CONFIG_PCI") (loadLines demoLines) :=
  C1_round_trip demoLines
    (by
      intro l hl
      simp only [demoLines, List.mem_cons, List.not_mem_nil, or_false] at hl
      rcases hl with rfl | rfl | rfl | rfl
      · exact CanonicalLine.yLine (chs "CONFIG_PCI") _ (by decide) (by decide)
      · exact CanonicalLine.notSetLine (chs "CONFIG_USB") _ (by decide) (by decide)
      · exact CanonicalLine.intLine (chs "CONFIG_TIMER_HZ") _ 100 (by decide) (by decide)
      · exact CanonicalLine.strLine (chs "CONFIG_NAME") (chs "LittleKernel") _ (by decide)
          (by decide) (by decide))
    (chs "CONFIG_PCI")

/-- C2: the loader half of the claim fails on the code.  In `load_config` the
`elif` that handles `# NAME is not set` lines is nested inside the branch
requiring the line not to start with `#`, so it is unreachable: every
`#`-initial line is skipped and no disabled-form line ever yields
`Boolean(false)`.  The saver half does hold: a false boolean is written as
the disabled-form line `#NAME is not set`. -/
theorem C2_disabled_form_dead_code :
    loadLines [chs "# CONFIG_USB is not set"] = []
      ∧ loadLines [chs "#CONFIG_USB is not set"] = []
      ∧ saveLine (chs "CONFIG_USB") (PyVal.bool false) = chs "#CONFIG_USB is not set" :=
  ⟨by decide, by decide, by decide⟩

/-- C3: on the scenario input the editor's loader yields only three options —
`CONFIG_USB` is dropped by the dead disabled-form handler, contradicting the
claimed `Boolean(false)`.  The header-compiler half of the claim holds: the
output contains the exact guarded `CONFIG_TIMER_HZ` block. -/
theorem C3_scenario :
    loadLines scenarioLines
      = [ (chs "CONFIG_PCI", PyVal.bool true)
        , (chs "CONFIG_TIMER_HZ", PyVal.int 100)
        , (chs "CONFIG_NAME", PyVal.str (chs "LittleKernel")) ]
      ∧ lookupStr (chs "CONFIG_USB") (loadLines scenarioLines) = none
      ∧ genDefines scenarioLines
        = [ (chs "CONFIG_PCI", chs "1", chs "boolean")
          , (chs "CONFIG_USB", chs "0", chs "disabled")
          , (chs "CONFIG_TIMER_HZ", chs "100", chs "numeric")
          , (chs "CONFIG_NAME", chs "\"LittleKernel\"", chs "string") ]
      ∧ hasSub (chs "#ifndef CONFIG_TIMER_HZ\n#define CONFIG_TIMER_HZ 100  /* numeric */\n#endif\n")
          (headerText (genDefines scenarioLines)) = true :=
  ⟨by decide, by decide, by decide, by decide⟩

/-- C4 counterexample: the raw value `hello` is unquoted, is no boolean token
and does not parse as an integer, yet the header compiler emits it verbatim
(unquoted) with the tag `numeric` — not wrapped in double quotes as a string. -/
theorem C4_counterexample :
    pyInt? (chs "hello") = none
      ∧ genLine (chs "CONFIG_FOO=hello") = some (chs "CONFIG_FOO", chs "hello", chs "numeric")
      ∧ classifyValue (chs "hello") ≠ (chs "\"hello\"", chs "string") :=
  ⟨by decide, by decide, by decide⟩

/-- C4 amended: in the header compiler, a raw value that is not quoted and is
not a case-insensitive boolean token is emitted verbatim (without quotes) and
tagged `numeric`, whether or not it parses as an integer; only quoted raw
values are emitted wrapped in double quotes. -/
theorem C4_amended (v : Str)
    (hq : ¬(v.head? = some '"' ∧ v.reverse.head? = some '"'))
    (ht : strLower v ∉ trueTokens) (hf : strLower v ∉ falseTokens) :
    classifyValue v = (v, chs "numeric") := by
  unfold classifyValue
  rw [if_neg hq, if_neg ht, if_neg hf]

/-- Witness for C4 at the non-integer raw value `hello`. -/
theorem C4_amended_witness :
    classifyValue (chs "hello") = (chs "hello", chs "numeric") :=
  C4_amended (chs "hello") (by decide) (by decide) (by decide)

/-- C5 counterexample: the editor's loader maps the literal token `n` to
`Boolean(false)`, not to the plain string `n`, refuting the claim that the
interactive path recognizes only `y` and treats every other non-quoted,
non-numeric value as a string. -/
theorem C5_counterexample :
    parseValue (chs "n") = PyVal.bool false
      ∧ pyInt? (chs "n") = none
      ∧ PyVal.bool false ≠ PyVal.str (chs "n") :=
  ⟨by decide, by decide, by decide⟩

/-- C5 amended: the header-generation path maps case-normalized `y`/`yes`/`true`
to `1` and `n`/`no`/`false` to `0`; the interactive-editing path recognizes the
literal token `y` as `Boolean(true)` and also the literal token `n` as
`Boolean(false)`, and otherwise treats a non-quoted, non-numeric value as a
plain string.  The final conjunct is scoped to ASCII raw values, on which
`pyInt?` (PEP 515 underscores included) agrees with Python's `int()` exactly;
the ASCII hypothesis keeps the statement from speaking about Unicode digits
or whitespace outside the model's scope. -/
theorem C5_amended :
    (∀ v : Str, ¬(v.head? = some '"' ∧ v.reverse.head? = some '"') →
        strLower v ∈ trueTokens → classifyValue v = (chs "1", chs "boolean"))
      ∧ (∀ v : Str, ¬(v.head? = some '"' ∧ v.reverse.head? = some '"') →
          strLower v ∈ falseTokens → classifyValue v = (chs "0", chs "boolean"))
      ∧ parseValue (chs "y") = PyVal.bool true
      ∧ parseValue (chs "n") = PyVal.bool false
      ∧ (∀ v : Str, (∀ c ∈ v, c.toNat < 128) →
          ¬(v.head? = some '"' ∧ v.reverse.head? = some '"') →
          v ≠ chs "y" → v ≠ chs "n" → pyInt? v = none → parseValue v = PyVal.str v) := by
  refine ⟨?_, ?_, by decide, by decide, ?_⟩
  · intro v hq ht
    unfold classifyValue
    rw [if_neg hq, if_pos ht]
  · intro v hq hf
    have ht : strLower v ∉ trueTokens := by
      intro ht
      simp only [falseTokens, List.mem_cons, List.not_mem_nil, or_false] at hf
      simp only [trueTokens, List.mem_cons, List.not_mem_nil, or_false] at ht
      rcases hf with hf | hf | hf <;> rcases ht with ht | ht | ht <;>
        rw [hf] at ht <;> exact absurd ht (by decide)
    unfold classifyValue
    rw [if_neg hq, if_neg ht, if_pos hf]
  · intro v _ hq hy hn hi
    unfold parseValue
    rw [if_neg hq, if_neg hy, if_neg hn, hi]

/-- Witness for C5 at the boundary tokens `Yes`, `FALSE` and `hello`. -/
theorem C5_amended_witness :
    classifyValue (chs "Yes") = (chs "1", chs "boolean")
      ∧ classifyValue (chs "FALSE") = (chs "0", chs "boolean")
      ∧ parseValue (chs "hello") = PyVal.str (chs "hello") :=
  ⟨C5_amended.1 (chs "Yes") (by decide) (by decide),
   C5_amended.2.1 (chs "FALSE") (by decide) (by decide),
   C5_amended.2.2.2.2 (chs "hello") (by decide) (by decide) (by decide) (by decide) (by decide)⟩

/-- C6: every define emitted by the header compiler sits in its own
`#ifndef NAME` / `#define` / `#endif` block inside the header (so repeated
inclusion never redefines a name), the file-level guard macro equals the
derivation of the default output file's name (underscore prefix, upper-case,
dot replaced), and compiling the same input twice yields identical text. -/
theorem C6_guard_structure :
    (∀ (ds : List (Str × Str × Str)) (n v t : Str), (n, v, t) ∈ ds →
        ∃ pre post, headerLines ds = pre ++ defineBlockLines n v t ++ post)
      ∧ guardMacro = specGuardOfFileName defaultHeaderFile
      ∧ (∀ ls, generate_config_header (some ls) = generate_config_header (some ls)) := by
  refine ⟨?_, by decide, fun ls => rfl⟩
  intro ds n v t hm
  obtain ⟨l1, l2, rfl⟩ := List.append_of_mem hm
  refine ⟨[ chs "/* Auto-generated from .config - DO NOT EDIT */"
          , chs "#ifndef " ++ guardMacro
          , chs "#define " ++ guardMacro
          , [] ] ++ (l1.map (fun d => defineBlockLines d.1 d.2.1 d.2.2)).flatten,
         (l2.map (fun d => defineBlockLines d.1 d.2.1 d.2.2)).flatten
           ++ [chs "#endif /* " ++ guardMacro ++ chs " */"], ?_⟩
  unfold headerLines
  simp [List.map_append, List.flatten_append, List.append_assoc]

/-- Witness for C6: the guard block of a concrete define inside a concrete header. -/
theorem C6_guard_structure_witness :
    ∃ pre post, headerLines [(chs "CONFIG_PCI", chs "1", chs "boolean")]
      = pre ++ defineBlockLines (chs "CONFIG_PCI") (chs "1") (chs "boolean") ++ post :=
  C6_guard_structure.1 [(chs "CONFIG_PCI", chs "1", chs "boolean")]
    (chs "CONFIG_PCI") (chs "1") (chs "boolean") (by decide)

/-- C7: when the config file is missing, the header compiler fails hard and
produces no header, while the editor's load yields the empty model and `main`
substitutes the built-in default option set. -/
theorem C7_missing_source :
    generate_config_header none = none
      ∧ load_config none = []
      ∧ main_initial_config none = default_config
      ∧ default_config ≠ [] :=
  ⟨rfl, rfl, rfl, by decide⟩

/-- Loading any line list (canonical or not) never duplicates dict keys. -/
theorem loadLines_nodup_aux : ∀ (lines : List Str) (d : Dict),
    (keysOf d).Nodup → (keysOf (lines.foldl loadLine d)).Nodup := by
  intro lines
  induction lines with
  | nil => exact fun d h => h
  | cons l rest ih =>
    intro d hd
    rw [List.foldl_cons]
    refine ih _ ?_
    simp only [loadLine]
    split
    · split
      · exact nodup_keys_dictSet _ _ hd
      · split
        · exact nodup_keys_dictSet _ _ hd
        · exact hd
    · exact hd

theorem load_config_nodup (f : Option (List Str)) : (keysOf (load_config f)).Nodup := by
  cases f with
  | none => simp [load_config, keysOf]
  | some ls => exact loadLines_nodup_aux ls [] (by simp [keysOf])

/-- C8 counterexample: after a successful external-configurator run the model
is updated with `config.update(load_config(".config"))`, a merge — an option
absent from the on-disk file survives in memory, so the resulting model is
not the model loaded from disk. -/
theorem C8_counterexample :
    dialog_choice cfgC8 true diskC8
        = [(chs "CONFIG_A", PyVal.bool true), (chs "CONFIG_B", PyVal.int 5)]
      ∧ load_config diskC8 = [(chs "CONFIG_B", PyVal.int 5)]
      ∧ lookupStr (chs "CONFIG_A") (dialog_choice cfgC8 true diskC8)
          = some (PyVal.bool true)
      ∧ lookupStr (chs "CONFIG_A") (load_config diskC8) = none :=
  ⟨by decide, by decide, by decide, by decide⟩

/-- C8 amended: if the external tool fails the model is retained unchanged;
if it succeeds the model is merged with the on-disk contents — every option
present on disk takes its on-disk value, and options absent from disk keep
their in-memory values (so the model reflects the on-disk contents exactly
only where the disk file speaks). -/
theorem C8_amended :
    (∀ (c : Dict) (f : Option (List Str)), dialog_choice c false f = c)
      ∧ (∀ (c : Dict) (f : Option (List Str)) (q : Str) (v : PyVal),
          lookupStr q (load_config f) = some v →
          lookupStr q (dialog_choice c true f) = some v)
      ∧ (∀ (c : Dict) (f : Option (List Str)) (q : Str),
          lookupStr q (load_config f) = none →
          lookupStr q (dialog_choice c true f) = lookupStr q c) := by
  refine ⟨fun c f => rfl, ?_, ?_⟩
  · intro c f q v h
    exact lookupStr_dictUpdate_some c (load_config_nodup f) h
  · intro c f q h
    exact lookupStr_dictUpdate_none c h

/-- Witness for C8 on the concrete model and disk file of the counterexample. -/
theorem C8_amended_witness :
    dialog_choice cfgC8 false diskC8 = cfgC8
      ∧ lookupStr (chs "CONFIG_B") (dialog_choice cfgC8 true diskC8) = some (PyVal.int 5)
      ∧ lookupStr (chs "CONFIG_A") (dialog_choice cfgC8 true diskC8)
          = lookupStr (chs "CONFIG_A") cfgC8 :=
  ⟨C8_amended.1 cfgC8 diskC8,
   C8_amended.2.1 cfgC8 diskC8 (chs "CONFIG_B") (PyVal.int 5) (by decide),
   C8_amended.2.2 cfgC8 diskC8 (chs "CONFIG_A") (by decide)⟩

/-- A single dict assignment changes the lookup of at most one key. -/
theorem dictSet_at_most_one {c : Dict} {k : Str} {v : PyVal} {k1 k2 : Str}
    (hne : k1 ≠ k2) (h1 : lookupStr k1 (dictSet c k v) ≠ lookupStr k1 c) :
    lookupStr k2 (dictSet c k v) = lookupStr k2 c := by
  rw [lookupStr_dictSet] at h1 ⊢
  by_cases e1 : k1 = k
  · subst e1
    rw [if_neg (fun e2 : k2 = k1 => hne e2.symm)]
  · rw [if_neg e1] at h1
    exact absurd rfl h1

/-- `toggle_bool_options` either leaves the model unchanged or performs one
dict assignment. -/
theorem toggle_bool_options_shape (c : Dict) (inp : Str) :
    toggle_bool_options c inp = c
      ∨ ∃ k v, toggle_bool_options c inp = dictSet c k v := by
  unfold toggle_bool_options
  by_cases h0 : bool_options c = []
  · rw [if_pos h0]
    exact Or.inl rfl
  · rw [if_neg h0]
    cases hi : pyInt? (pyStrip inp) with
    | none => exact Or.inl rfl
    | some n =>
      dsimp only
      by_cases hz : n = 0
      · rw [if_pos hz]
        exact Or.inl rfl
      · rw [if_neg hz]
        by_cases hr : 1 ≤ n ∧ n ≤ (bool_options c).length
        · rw [if_pos hr]
          cases hg : (bool_options c)[(n - 1).toNat]? with
          | none => exact Or.inl rfl
          | some p =>
            dsimp only
            cases hl : lookupStr p.1 c with
            | none => exact Or.inl rfl
            | some v => exact Or.inr ⟨p.1, pyNot v, rfl⟩
        · rw [if_neg hr]
          exact Or.inl rfl

/-- `set_int_options` either leaves the model unchanged or performs one dict
assignment. -/
theorem set_int_options_shape (c : Dict) (inp newVal : Str) :
    set_int_options c inp newVal = c
      ∨ ∃ k v, set_int_options c inp newVal = dictSet c k v := by
  unfold set_int_options
  by_cases h0 : int_options c = []
  · rw [if_pos h0]
    exact Or.inl rfl
  · rw [if_neg h0]
    cases hi : pyInt? (pyStrip inp) with
    | none => exact Or.inl rfl
    | some n =>
      dsimp only
      by_cases hz : n = 0
      · rw [if_pos hz]
        exact Or.inl rfl
      · rw [if_neg hz]
        by_cases hr : 1 ≤ n ∧ n ≤ (int_options c).length
        · rw [if_pos hr]
          cases hg : (int_options c)[(n - 1).toNat]? with
          | none => exact Or.inl rfl
          | some p =>
            dsimp only
            cases hv : pyInt? (pyStrip newVal) with
            | none => exact Or.inl rfl
            | some m => exact Or.inr ⟨p.1, PyVal.int m, rfl⟩
        · rw [if_neg hr]
          exact Or.inl rfl

/-- `set_string_options` either leaves the model unchanged or performs one
dict assignment. -/
theorem set_string_options_shape (c : Dict) (inp newVal : Str) :
    set_string_options c inp newVal = c
      ∨ ∃ k v, set_string_options c inp newVal = dictSet c k v := by
  unfold set_string_options
  by_cases h0 : str_options c = []
  · rw [if_pos h0]
    exact Or.inl rfl
  · rw [if_neg h0]
    cases hi : pyInt? (pyStrip inp) with
    | none => exact Or.inl rfl
    | some n =>
      dsimp only
      by_cases hz : n = 0
      · rw [if_pos hz]
        exact Or.inl rfl
      · rw [if_neg hz]
        by_cases hr : 1 ≤ n ∧ n ≤ (str_options c).length
        · rw [if_pos hr]
          cases hg : (str_options c)[(n - 1).toNat]? with
          | none => exact Or.inl rfl
          | some p => exact Or.inr ⟨p.1, PyVal.str (pyStrip newVal), rfl⟩
        · rw [if_neg hr]
          exact Or.inl rfl

/-- No-mutation cases of `toggle_bool_options`: unparseable input, selecting
`0`, and an out-of-range index all leave the model unchanged. -/
theorem toggle_bool_options_nomut (c : Dict) (inp : Str) :
    (pyInt? (pyStrip inp) = none → toggle_bool_options c inp = c)
      ∧ (pyInt? (pyStrip inp) = some 0 → toggle_bool_options c inp = c)
      ∧ (∀ n : Int, pyInt? (pyStrip inp) = some n →
          ¬(1 ≤ n ∧ n ≤ ((bool_options c).length : Int)) → toggle_bool_options c inp = c) := by
  unfold toggle_bool_options
  by_cases h0 : bool_options c = []
  · rw [if_pos h0]
    exact ⟨fun _ => rfl, fun _ => rfl, fun _ _ _ => rfl⟩
  · rw [if_neg h0]
    refine ⟨fun h => by rw [h], fun h => by rw [h]; rfl, fun n h hr => ?_⟩
    rw [h]
    dsimp only
    by_cases hz : n = 0
    · rw [if_pos hz]
    · rw [if_neg hz, if_neg hr]

/-- No-mutation cases of `set_int_options`. -/
theorem set_int_options_nomut (c : Dict) (inp nv : Str) :
    (pyInt? (pyStrip inp) = none → set_int_options c inp nv = c)
      ∧ (pyInt? (pyStrip inp) = some 0 → set_int_options c inp nv = c)
      ∧ (∀ n : Int, pyInt? (pyStrip inp) = some n →
          ¬(1 ≤ n ∧ n ≤ ((int_options c).length : Int)) → set_int_options c inp nv = c) := by
  unfold set_int_options
  by_cases h0 : int_options c = []
  · rw [if_pos h0]
    exact ⟨fun _ => rfl, fun _ => rfl, fun _ _ _ => rfl⟩
  · rw [if_neg h0]
    refine ⟨fun h => by rw [h], fun h => by rw [h]; rfl, fun n h hr => ?_⟩
    rw [h]
    dsimp only
    by_cases hz : n = 0
    · rw [if_pos hz]
    · rw [if_neg hz, if_neg hr]

/-- No-mutation cases of `set_string_options`. -/
theorem set_string_options_nomut (c : Dict) (inp nv : Str) :
    (pyInt? (pyStrip inp) = none → set_string_options c inp nv = c)
      ∧ (pyInt? (pyStrip inp) = some 0 → set_string_options c inp nv = c)
      ∧ (∀ n : Int, pyInt? (pyStrip inp) = some n →
          ¬(1 ≤ n ∧ n ≤ ((str_options c).length : Int)) → set_string_options c inp nv = c) := by
  unfold set_string_options
  by_cases h0 : str_options c = []
  · rw [if_pos h0]
    exact ⟨fun _ => rfl, fun _ => rfl, fun _ _ _ => rfl⟩
  · rw [if_neg h0]
    refine ⟨fun h => by rw [h], fun h => by rw [h]; rfl, fun n h hr => ?_⟩
    rw [h]
    dsimp only
    by_cases hz : n = 0
    · rw [if_pos hz]
    · rw [if_neg hz, if_neg hr]

/-- C9 counterexample: the "integer options" listing is filtered with
`isinstance(v, int)`, which booleans satisfy, so it also contains the
boolean-valued option `CONFIG_PCI`; selecting it and entering `7` retypes the
boolean option to an integer.  This refutes the claim that each listing
contains exactly the options of its value type. -/
theorem C9_counterexample :
    (chs "CONFIG_PCI", PyVal.bool true) ∈ int_options cfgC9
      ∧ PyVal.isIntVal (PyVal.bool true) = false
      ∧ int_options cfgC9 ≠ [(chs "CONFIG_TIMER_HZ", PyVal.int 100)]
      ∧ set_int_options cfgC9 (chs "1") (chs "7")
          = [(chs "CONFIG_PCI", PyVal.int 7), (chs "CONFIG_TIMER_HZ", PyVal.int 100)] :=
  ⟨by decide, by decide, by decide, by decide⟩

/-- C9 amended: the boolean and string listings contain exactly the options of
their value type, but the integer listing contains exactly the options whose
value is a boolean or an integer (Python's `bool` passes the `int` test).
Selecting `0`, a non-numeric input, or an out-of-range index causes no
mutation, and any edit changes the lookup of at most the one selected option,
leaving every other option's value and type unchanged.  The non-numeric
(`pyInt? _ = none`) conjunct is scoped to ASCII inputs, on which the model of
`int()` (PEP 515 underscores included) is exact — an input such as `1_0` is
the number `10` and is treated as an index, not as invalid input; the
`pyInt? _ = some _` conjuncts need no scope because the model only accepts
strings `int()` parses identically. -/
theorem C9_amended :
    (∀ (c : Dict) (p : Str × PyVal), p ∈ bool_options c ↔ p ∈ c ∧ p.2.isBoolVal = true)
      ∧ (∀ (c : Dict) (p : Str × PyVal),
          p ∈ int_options c ↔ p ∈ c ∧ (p.2.isBoolVal = true ∨ p.2.isIntVal = true))
      ∧ (∀ (c : Dict) (p : Str × PyVal), p ∈ str_options c ↔ p ∈ c ∧ p.2.isStrVal = true)
      ∧ (∀ (c : Dict) (inp : Str), (∀ ch ∈ inp, ch.toNat < 128) →
          pyInt? (pyStrip inp) = none →
          toggle_bool_options c inp = c ∧ (∀ nv, set_int_options c inp nv = c)
            ∧ (∀ nv, set_string_options c inp nv = c))
      ∧ (∀ (c : Dict) (inp : Str), pyInt? (pyStrip inp) = some 0 →
          toggle_bool_options c inp = c ∧ (∀ nv, set_int_options c inp nv = c)
            ∧ (∀ nv, set_string_options c inp nv = c))
      ∧ (∀ (c : Dict) (inp : Str) (n : Int), pyInt? (pyStrip inp) = some n →
          ¬(1 ≤ n ∧ n ≤ ((bool_options c).length : Int)) → toggle_bool_options c inp = c)
      ∧ (∀ (c : Dict) (inp nv : Str) (n : Int), pyInt? (pyStrip inp) = some n →
          ¬(1 ≤ n ∧ n ≤ ((int_options c).length : Int)) → set_int_options c inp nv = c)
      ∧ (∀ (c : Dict) (inp nv : Str) (n : Int), pyInt? (pyStrip inp) = some n →
          ¬(1 ≤ n ∧ n ≤ ((str_options c).length : Int)) → set_string_options c inp nv = c)
      ∧ (∀ (c : Dict) (inp k1 k2 : Str), k1 ≠ k2 →
          lookupStr k1 (toggle_bool_options c inp) ≠ lookupStr k1 c →
          lookupStr k2 (toggle_bool_options c inp) = lookupStr k2 c)
      ∧ (∀ (c : Dict) (inp nv k1 k2 : Str), k1 ≠ k2 →
          lookupStr k1 (set_int_options c inp nv) ≠ lookupStr k1 c →
          lookupStr k2 (set_int_options c inp nv) = lookupStr k2 c)
      ∧ (∀ (c : Dict) (inp nv k1 k2 : Str), k1 ≠ k2 →
          lookupStr k1 (set_string_options c inp nv) ≠ lookupStr k1 c →
          lookupStr k2 (set_string_options c inp nv) = lookupStr k2 c) := by
  refine ⟨?_, ?_, ?_, ?_, ?_, ?_, ?_, ?_, ?_, ?_, ?_⟩
  · intro c p
    simp [bool_options, List.mem_filter, isinstBool]
  · intro c p
    simp [int_options, List.mem_filter, isinstInt, Bool.or_eq_true]
  · intro c p
    constructor
    · intro hp
      have := List.mem_filter.1 hp
      refine ⟨this.1, ?_⟩
      revert this
      cases p.2 <;> simp [isinstStr, isinstBool, PyVal.isStrVal, PyVal.isBoolVal]
    · intro hp
      refine List.mem_filter.2 ⟨hp.1, ?_⟩
      have := hp.2
      revert this
      cases p.2 <;> simp [isinstStr, isinstBool, PyVal.isStrVal, PyVal.isBoolVal]
  · intro c inp _ h
    exact ⟨(toggle_bool_options_nomut c inp).1 h,
      fun nv => (set_int_options_nomut c inp nv).1 h,
      fun nv => (set_string_options_nomut c inp nv).1 h⟩
  · intro c inp h
    exact ⟨(toggle_bool_options_nomut c inp).2.1 h,
      fun nv => (set_int_options_nomut c inp nv).2.1 h,
      fun nv => (set_string_options_nomut c inp nv).2.1 h⟩
  · exact fun c inp n h hr => (toggle_bool_options_nomut c inp).2.2 n h hr
  · exact fun c inp nv n h hr => (set_int_options_nomut c inp nv).2.2 n h hr
  · exact fun c inp nv n h hr => (set_string_options_nomut c inp nv).2.2 n h hr
  · intro c inp k1 k2 hne h1
    rcases toggle_bool_options_shape c inp with he | ⟨k, v, he⟩
    · rw [he]
    · rw [he] at h1 ⊢
      exact dictSet_at_most_one hne h1
  · intro c inp nv k1 k2 hne h1
    rcases set_int_options_shape c inp nv with he | ⟨k, v, he⟩
    · rw [he]
    · rw [he] at h1 ⊢
      exact dictSet_at_most_one hne h1
  · intro c inp nv k1 k2 hne h1
    rcases set_string_options_shape c inp nv with he | ⟨k, v, he⟩
    · rw [he]
    · rw [he] at h1 ⊢
      exact dictSet_at_most_one hne h1

/-- Witness for C9 at the concrete two-option model; the input `1_0` parses
as the index `10` (PEP 515), which is out of range here, so the no-mutation
branch taken is the out-of-range one, not the invalid-input one. -/
theorem C9_amended_witness :
    ((chs "CONFIG_PCI", PyVal.bool true) ∈ int_options cfgC9
        ↔ (chs "CONFIG_PCI", PyVal.bool true) ∈ cfgC9
          ∧ ((PyVal.bool true).isBoolVal = true ∨ (PyVal.bool true).isIntVal = true))
      ∧ toggle_bool_options cfgC9 (chs "abc") = cfgC9
      ∧ toggle_bool_options cfgC9 (chs "0") = cfgC9
      ∧ toggle_bool_options cfgC9 (chs "5") = cfgC9
      ∧ set_int_options cfgC9 (chs "1_0") (chs "7") = cfgC9
      ∧ lookupStr (chs "CONFIG_TIMER_HZ") (toggle_bool_options cfgC9 (chs "1"))
          = lookupStr (chs "CONFIG_TIMER_HZ") cfgC9 :=
  ⟨C9_amended.2.1 cfgC9 (chs "CONFIG_PCI", PyVal.bool true),
   (C9_amended.2.2.2.1 cfgC9 (chs "abc") (by decide) (by decide)).1,
   (C9_amended.2.2.2.2.1 cfgC9 (chs "0") (by decide)).1,
   C9_amended.2.2.2.2.2.1 cfgC9 (chs "5") 5 (by decide) (by decide),
   C9_amended.2.2.2.2.2.2.1 cfgC9 (chs "1_0") (chs "7") 10 (by decide) (by decide),
   C9_amended.2.2.2.2.2.2.2.2.1 cfgC9 (chs "1") (chs "CONFIG_PCI") (chs "CONFIG_TIMER_HZ")
     (by decide) (by decide)⟩

/-- The last character of a disabled-form line is `t`. -/
theorem notSet_reverse_head (k : Str) :
    ('#' :: k ++ chs " is not set").reverse.head? = some 't' := by
  rw [List.cons_append, List.reverse_cons, List.reverse_append]
  rw [headQ_append ((chs " is not set").reverse ++ k.reverse)
    (fun h => absurd (List.append_eq_nil.1 h).1 (by decide))]
  rw [headQ_append (chs " is not set").reverse (by decide)]
  decide

/-- C10: both `save_config` and `view_config` test `isinstance(value, bool)`
before `isinstance(value, int)`, so a boolean option is always rendered as
`NAME=y` or as the disabled-form line and never as a bare integer assignment —
even though a boolean also satisfies the integer `isinstance` test. -/
theorem C10_bool_dispatch (k : Str) (b : Bool) :
    isinstInt (PyVal.bool b) = true
      ∧ saveLine k (PyVal.bool true) = k ++ chs "=y"
      ∧ saveLine k (PyVal.bool false) = '#' :: k ++ chs " is not set"
      ∧ viewLine k (PyVal.bool true) = k ++ chs "=y"
      ∧ viewLine k (PyVal.bool false) = '#' :: k ++ chs " is not set"
      ∧ (∀ n : Int, saveLine k (PyVal.bool b) ≠ k ++ '=' :: pyIntRepr n) := by
  refine ⟨rfl, rfl, rfl, rfl, rfl, ?_⟩
  intro n he
  cases b with
  | true =>
    have he' : k ++ chs "=y" = k ++ '=' :: pyIntRepr n := he
    have h2 : chs "=y" = '=' :: pyIntRepr n := by
      have h3 := congrArg (fun l => List.drop k.length l) he'
      simpa [List.drop_left] using h3
    have h4 : pyIntRepr n = chs "y" := by
      have := List.tail_eq_of_cons_eq (show ('=' : Char) :: chs "y" = '=' :: pyIntRepr n from h2)
      rw [← this]
    have hm : 'y' ∈ pyIntRepr n := by rw [h4]; decide
    rcases pyIntRepr_chars n 'y' hm with h | h
    · revert h; decide
    · revert h; decide
  | false =>
    have he' : '#' :: k ++ chs " is not set" = k ++ '=' :: pyIntRepr n := he
    have h1 := notSet_reverse_head k
    rw [he', List.reverse_append, List.reverse_cons] at h1
    obtain ⟨c, t, hct⟩ := List.exists_cons_of_ne_nil
      (show (pyIntRepr n).reverse ≠ [] by simpa using pyIntRepr_ne_nil n)
    rw [hct] at h1
    simp only [List.cons_append, List.head?_cons, Option.some.injEq] at h1
    have hc : c ∈ pyIntRepr n := (List.mem_reverse).1 (by rw [hct]; exact List.mem_cons_self c t)
    rw [h1] at hc
    rcases pyIntRepr_chars n 't' hc with h | h
    · revert h; decide
    · revert h; decide

/-- Witness for C10 at a concrete option name. -/
theorem C10_bool_dispatch_witness :
    saveLine (chs "CONFIG_PCI") (PyVal.bool true) = chs "CONFIG_PCI" ++ chs "=y"
      ∧ saveLine (chs "CONFIG_PCI") (PyVal.bool true)
          ≠ chs "CONFIG_PCI" ++ '=' :: pyIntRepr 1 :=
  ⟨(C10_bool_dispatch (chs "CONFIG_PCI") true).2.1,
   (C10_bool_dispatch (chs "CONFIG_PCI") true).2.2.2.2.2 1⟩
